import Mathlib

/-!
Verification of the recovery OTA installer core
(`src/install.c`, `src/recovery.c`) against its specification.

The C code is shallowly embedded: each C function becomes a Lean
function over explicit environment/state values standing for the
external world (filesystem, zip archive, child process, bootloader
control block).  External collaborators (zip library internals, crypto,
the amend interpreter, `fork`/`exec`) are modelled as data supplied in
an environment record; the control flow of the embedded functions
follows the C sources line by line.
-/

namespace Recovery

/-- Modelled from the spec: the install result enum lives in the missing
header `install.h`; the spec (§6) fixes SUCCESS as the 0-equivalent and
(§4.5) fixes the raw extraction-failure code `1` as a generic
non-CORRUPT failure, i.e. ERROR.  The C functions return plain `int`,
so results are embedded as naturals. -/
def INSTALL_SUCCESS : Nat := 0

/-- Modelled from the spec: see `INSTALL_SUCCESS`. -/
def INSTALL_ERROR : Nat := 1

/-- Modelled from the spec: see `INSTALL_SUCCESS`. -/
def INSTALL_CORRUPT : Nat := 2

/-- `META-INF/com/google/android/update-binary` (install.c). -/
def ASSUMED_UPDATE_BINARY_NAME : String :=
  "META-INF/com/google/android/update-binary"

/-- `META-INF/com/google/android/update-script` (install.c). -/
def ASSUMED_UPDATE_SCRIPT_NAME : String :=
  "META-INF/com/google/android/update-script"

/-- A zip entry, reduced to what install.c reads from it. -/
structure ZipEntry where
  uncompLen : Nat
deriving DecidableEq, Repr

/-- An archive: a name-indexed sequence of entries (external collaborator
surface: `mzFindZipEntry` is lookup by exact name). -/
structure ZipArchive where
  entries : List (String × ZipEntry)
deriving DecidableEq, Repr

/-- `mzFindZipEntry`: first entry with the given name, if any. -/
def mzFindZipEntry (zip : ZipArchive) (name : String) : Option ZipEntry :=
  (zip.entries.find? (fun e => e.1 = name)).map (fun e => e.2)

/-- `find_update_script` (install.c): look up the fixed script entry name. -/
def find_update_script (zip : ZipArchive) : Option ZipEntry :=
  mzFindZipEntry zip ASSUMED_UPDATE_SCRIPT_NAME

/-! ## Child-process progress protocol (install.c, try_update_binary loop)

Each line read by `fgets` is tokenized by `strtok(buffer, " \n")`, which
yields the list of maximal nonempty runs of non-delimiter characters;
a line is embedded as that token list.  The loop's only install-relevant
state is the pair of recorded firmware strings (`firmware_type`,
`firmware_filename`), both `NULL` initially. -/

/-- One iteration of the protocol loop: the effect of one line on the
recorded pending-firmware request.  `progress`, `set_progress`,
`ui_print` and unrecognized verbs only touch the UI and leave the
request alone, exactly as the C branches do. -/
def protoStep (st : Option (String × String)) (line : List String) :
    Option (String × String) :=
  match line with
  | [] => st
  | command :: rest =>
    if command = "progress" then st
    else if command = "set_progress" then st
    else if command = "firmware" then
      match rest with
      | type :: filename :: _ =>
        match st with
        | some _ => st          -- duplicate: warned about and ignored
        | none => some (type, filename)
      | _ => st                 -- missing token: strtok returned NULL
    else if command = "ui_print" then st
    else st                     -- unknown command: logged, loop continues

/-- The whole protocol loop, from an initial request state. -/
def runProtocolFrom (st : Option (String × String))
    (lines : List (List String)) : Option (String × String) :=
  lines.foldl protoStep st

/-- The protocol loop as `try_update_binary` runs it (no request pending
at the start). -/
def runProtocol (lines : List (List String)) : Option (String × String) :=
  runProtocolFrom none lines

/-! ## handle_firmware_update (install.c) -/

/-- Environment for `handle_firmware_update`: outcomes of the external
calls it makes, in program order. -/
structure FwEnv where
  /-- `stat(filename,·) = 0` (filesystem branch only). -/
  stat_ok : Bool
  /-- `malloc(data_size)` succeeded. -/
  malloc_ok : Bool
  /-- `mzReadZipEntry` succeeded (PACKAGE: branch only). -/
  zip_read_ok : Bool
  /-- `fopen(filename,"rb")` succeeded (filesystem branch only). -/
  fopen_ok : Bool
  /-- `fread` returned the full `data_size` (filesystem branch only). -/
  fread_ok : Bool
  /-- `remember_firmware_update` returned 0 (payload persisted). -/
  remember_ok : Bool
deriving DecidableEq, Repr

/-- `handle_firmware_update(type, filename, zip)`.  The `PACKAGE:`
prefix selects the archive source; otherwise the filename is a
filesystem path.  `type` is only logged and forwarded to
`remember_firmware_update`, whose outcome is `env.remember_ok`. -/
def handle_firmware_update (type filename : String) (zip : ZipArchive)
    (env : FwEnv) : Nat :=
  if filename.data.take 8 = "PACKAGE:".data then
    match mzFindZipEntry zip (String.mk (filename.data.drop 8)) with
    | none => INSTALL_ERROR
    | some _ =>
      if !env.malloc_ok then INSTALL_ERROR
      else if !env.zip_read_ok then INSTALL_ERROR
      else if !env.remember_ok then INSTALL_ERROR
      else INSTALL_SUCCESS
  else
    if !env.stat_ok then INSTALL_ERROR
    else if !env.malloc_ok then INSTALL_ERROR
    else if !env.fopen_ok then INSTALL_ERROR
    else if !env.fread_ok then INSTALL_ERROR
    else if !env.remember_ok then INSTALL_ERROR
    else INSTALL_SUCCESS

/-- The condition under which the firmware deferral step succeeds:
the payload was read (from the archive or the filesystem) and
persisted by `remember_firmware_update`. -/
def fwStepReadAndPersisted (filename : String) (zip : ZipArchive)
    (env : FwEnv) : Bool :=
  if filename.data.take 8 = "PACKAGE:".data then
    (mzFindZipEntry zip (String.mk (filename.data.drop 8))).isSome
      && env.malloc_ok && env.zip_read_ok && env.remember_ok
  else
    env.stat_ok && env.malloc_ok && env.fopen_ok && env.fread_ok
      && env.remember_ok

/-! ## try_update_binary (install.c) -/

/-- Environment for `try_update_binary`: outcomes of external calls and
the child process's observable behaviour. -/
structure ChildEnv where
  /-- `creat("/tmp/update_binary", 0755) ≥ 0`. -/
  creat_ok : Bool
  /-- `mzExtractZipEntryToFile` succeeded. -/
  extract_ok : Bool
  /-- Protocol lines read from the pipe, already `strtok`-tokenized. -/
  lines : List (List String)
  /-- `WIFEXITED(status)` after `waitpid`. -/
  exited : Bool
  /-- `WEXITSTATUS(status)`. -/
  exitStatus : Nat
  /-- Environment for `handle_firmware_update`, if reached. -/
  fw : FwEnv
deriving DecidableEq, Repr

/-- `try_update_binary(path, zip)`.  Returns `INSTALL_CORRUPT` when the
binary entry is absent, the raw code `1` on extraction failures, and
otherwise the result of supervising the child. -/
def try_update_binary (zip : ZipArchive) (env : ChildEnv) : Nat :=
  match mzFindZipEntry zip ASSUMED_UPDATE_BINARY_NAME with
  | none => INSTALL_CORRUPT
  | some _ =>
    if !env.creat_ok then 1
    else if !env.extract_ok then 1
    else
      let fwReq := runProtocol env.lines
      if !env.exited || env.exitStatus != 0 then INSTALL_ERROR
      else
        match fwReq with
        | some (type, filename) =>
          handle_firmware_update type filename zip env.fw
        | none => INSTALL_SUCCESS

/-! ## handle_update_script (install.c)

The amend interpreter (`parseAmendScript` / `execCommandList`) is an
external collaborator; its outcomes are environment data.  The
line-number diagnostic loop over the script buffer is embedded
faithfully: the buffer is the script text, and the loop's `memchr`
scan corresponds to the newline-separated segments of that text. -/

/-- Split a character buffer into the segments delimited by `sep`
(segments may be empty; a buffer with `k` separators has `k + 1`
segments). -/
def splitOnChar (sep : Char) (cs : List Char) : List (List Char) :=
  cs.foldr
    (fun c acc =>
      if c = sep then [] :: acc
      else (c :: acc.headD []) :: acc.tail)
    [[]]

/-- The newline-separated segments of a buffer: its source lines, the
last one possibly not newline-terminated. -/
def splitNL (cs : List Char) : List (List Char) :=
  splitOnChar '\n' cs

/-- `memchr(line, '\n', ...)` followed by `*next++ = '\0'`: the
current segment (what the NUL-terminated `line` prints as) and the
rest of the buffer after the newline, or `none` when no newline
remains (`memchr` returned NULL). -/
def splitFirstNL : List Char → List Char × Option (List Char)
  | [] => ([], none)
  | c :: cs =>
    if c = '\n' then ([], some cs)
    else
      let (seg, rest) := splitFirstNL cs
      (c :: seg, rest)

/-- The scan loop of `handle_update_script`:
`while (next != NULL && ret-- > 0) { line = next; next = memchr(...); }`
run for (up to) `num` iterations.  It yields the segment `line` points
at exactly when `next` is still non-NULL after the loop; otherwise the
C prints the placeholder instead. -/
def scanLines : Nat → List Char → Option (List Char)
  | 0, _ => none
  | 1, buf =>
    match splitFirstNL buf with
    | (_, none) => none
    | (seg, some _) => some seg
  | k + 2, buf =>
    match splitFirstNL buf with
    | (_, none) => none
    | (_, some rest) => scanLines (k + 1) rest

/-- Environment for `handle_update_script`. -/
structure ScriptEnv where
  /-- `read_data` succeeded (entry length positive, malloc and
  `mzReadZipEntry` ok). -/
  read_ok : Bool
  /-- The script text placed in the buffer when `read_ok`. -/
  script : List Char
  /-- `parseAmendScript` returned a non-NULL command list. -/
  parse_ok : Bool
  /-- `execCommandList` return value (0 means success; a positive value
  is treated as the 1-based line number at which execution stopped). -/
  exec_ret : Nat
deriving DecidableEq, Repr

/-- `handle_update_script(zip, entry)`: result paired with the line
argument of the `LOGE("更新脚本行%d错误:\n%s\n", num, next ? line :
"(未找到)")` diagnostic, when one is printed. -/
def handle_update_script (env : ScriptEnv) : Nat × Option (List Char) :=
  if !env.read_ok then (INSTALL_ERROR, none)
  else if !env.parse_ok then (INSTALL_ERROR, none)
  else if env.exec_ret != 0 then
    (INSTALL_ERROR,
     some (match scanLines env.exec_ret env.script with
           | some line => line
           | none => "(未找到)".data))
  else (INSTALL_SUCCESS, none)

/-! ## load_keys (install.c)

The key file is scanned with `fscanf` format strings built from the
literals `{`, `}`, `,` and `%i` conversions, with whitespace skipped
between them, followed by one raw `fgetc`.  The file is embedded at
token level: a token is an opening brace, a closing brace, a comma, an
integer numeral, or any other (unparsable) character; whitespace
between tokens is implicit.  `none` stands for an unopenable file. -/

/-- A lexical token of the key file. -/
inductive KTok where
  | lb : KTok
  | rb : KTok
  | comma : KTok
  | int : Int → KTok
  | junk : KTok
deriving DecidableEq, Repr

/-- `RSANUMWORDS` (mincrypt, external dependency): the fixed expected
word count of a key's modulus. -/
def RSANUMWORDS : Int := 64

/-- An `RSAPublicKey` as `load_keys` fills it in. -/
structure RSAPublicKey where
  len : Int
  n0inv : Int
  n : List Int
  rr : List Int
deriving DecidableEq, Repr

/-- The repeated `fscanf(f, " , %i", ...)` loop: read `k` further
words, each preceded by a comma. -/
def readInts : Nat → List KTok → Option (List Int × List KTok)
  | 0, ts => some ([], ts)
  | k + 1, ts =>
    match ts with
    | KTok.comma :: KTok.int v :: ts' =>
      match readInts k ts' with
      | some (vs, rest) => some (v :: vs, rest)
      | none => none
    | _ => none

/-- The best-effort `fscanf(f, " } } ")` whose result the C ignores:
consume up to two closing braces. -/
def consumeRbRb : List KTok → List KTok
  | KTok.rb :: KTok.rb :: ts => ts
  | KTok.rb :: ts => ts
  | ts => ts

/-- Parse one key record: `{ %i , %i , { %i` then the remaining
modulus words, `} , { %i` then the remaining `rr` words, then the
unchecked `} }`.  Fails exactly where a C `fscanf` conversion fails or
where the `len` check rejects the record. -/
def parseOneKey (ts : List KTok) : Option (RSAPublicKey × List KTok) :=
  match ts with
  | KTok.lb :: KTok.int len :: KTok.comma :: KTok.int n0inv ::
      KTok.comma :: KTok.lb :: KTok.int n0 :: rest =>
    if len ≠ RSANUMWORDS then none
    else
      match readInts 63 rest with
      | none => none
      | some (ntail, ts1) =>
        match ts1 with
        | KTok.rb :: KTok.comma :: KTok.lb :: KTok.int rr0 :: ts2 =>
          match readInts 63 ts2 with
          | none => none
          | some (rrtail, ts3) =>
            some ({ len := len, n0inv := n0inv,
                    n := n0 :: ntail, rr := rr0 :: rrtail },
                  consumeRbRb ts3)
        | _ => none
  | _ => none

theorem readInts_length_le {k : Nat} {ts rest : List KTok} {vs : List Int}
    (h : readInts k ts = some (vs, rest)) : rest.length ≤ ts.length := by
  induction k generalizing ts rest vs with
  | zero =>
    simp only [readInts, Option.some.injEq, Prod.mk.injEq] at h
    obtain ⟨-, h2⟩ := h
    subst h2
    exact Nat.le_refl _
  | succ k ih =>
    simp only [readInts] at h
    split at h
    next v ts1 =>
      split at h
      next vs2 rest2 hrec =>
        simp only [Option.some.injEq, Prod.mk.injEq] at h
        obtain ⟨-, h2⟩ := h
        subst h2
        have := ih hrec
        simp only [List.length_cons]
        omega
      next => exact absurd h (by simp)
    next => exact absurd h (by simp)

theorem consumeRbRb_length_le (ts : List KTok) :
    (consumeRbRb ts).length ≤ ts.length := by
  unfold consumeRbRb
  split
  · simp only [List.length_cons]; omega
  · simp only [List.length_cons]; omega
  · exact Nat.le_refl _

theorem parseOneKey_length_lt {ts ts' : List KTok} {k : RSAPublicKey}
    (h : parseOneKey ts = some (k, ts')) : ts'.length < ts.length := by
  unfold parseOneKey at h
  split at h
  next len n0inv n0 rest =>
    split at h
    next => exact absurd h (by simp)
    next =>
      split at h
      next => exact absurd h (by simp)
      next ntail ts1 h1 =>
        split at h
        next rr0 ts2 =>
          split at h
          next => exact absurd h (by simp)
          next rrtail ts3 h2 =>
            have e1 := readInts_length_le h1
            have e2 := readInts_length_le h2
            have e3 := consumeRbRb_length_le ts3
            simp only [Option.some.injEq, Prod.mk.injEq] at h
            obtain ⟨-, h4⟩ := h
            subst h4
            simp only [List.length_cons] at e1 ⊢
            omega
        next => exact absurd h (by simp)
  next => exact absurd h (by simp)

/-- The `while (!done)` loop of `load_keys`: parse records, consuming a
separating comma between them; `fgetc` returning EOF ends the loop,
a comma continues it, and anything else fails the whole parse. -/
def load_keys_from (ts : List KTok) (acc : List RSAPublicKey) :
    Option (List RSAPublicKey) :=
  match h : parseOneKey ts with
  | none => none
  | some (key, ts') =>
    match ts' with
    | [] => some (acc ++ [key])
    | KTok.comma :: ts'' => load_keys_from ts'' (acc ++ [key])
    | _ => none
termination_by ts.length
decreasing_by
  have := parseOneKey_length_lt h
  simp only [List.length_cons] at this
  omega

/-- `load_keys(filename, &numKeys)`: `none` models the C returning NULL
with `*numKeys = 0` — on failure every partially parsed key has been
freed, so no key is ever returned from a failing parse. -/
def load_keys (file : Option (List KTok)) : Option (List RSAPublicKey) :=
  match file with
  | none => none
  | some ts => load_keys_from ts []

/-! ## handle_update_package and install_package (install.c) -/

/-- Environment for `handle_update_package`. -/
structure PkgEnv where
  child : ChildEnv
  /-- `register_package_root(zip, path) ≥ 0` on the script path. -/
  register_ok : Bool
  script : ScriptEnv
deriving DecidableEq, Repr

/-- `handle_update_package(path, zip)`: run the binary installer path,
and fall back to the legacy script path exactly when the result is
neither `INSTALL_SUCCESS` nor `INSTALL_ERROR`. -/
def handle_update_package (zip : ZipArchive) (env : PkgEnv) : Nat :=
  let result := try_update_binary zip env.child
  if result != INSTALL_SUCCESS && result != INSTALL_ERROR then
    match find_update_script zip with
    | none => INSTALL_CORRUPT
    | some _ =>
      if !env.register_ok then INSTALL_ERROR
      else (handle_update_script env.script).1
  else result

/-- Environment for `install_package`: outcomes of its pre-dispatch
steps, in program order, plus the archive contents and the dispatch
environment. -/
structure InstallEnv where
  /-- `ensure_root_path_mounted(root_path) = 0`. -/
  mount_ok : Bool
  /-- `translate_root_path` returned non-NULL. -/
  translate_ok : Bool
  /-- The key file handed to `load_keys` (see `KeyFile` below):
  `none` when `/res/keys` cannot be opened. -/
  keyfile : Option (List KTok)
  /-- `mzOpenZipArchive` returned 0. -/
  open_ok : Bool
  /-- `verify_jar_signature` returned true. -/
  verify_ok : Bool
  zip : ZipArchive
  pkg : PkgEnv

/-- Observable trace of one `install_package` run: its return value,
whether the install dispatch (`handle_update_package`) was reached, and
the archive open/close events. -/
structure InstallTrace where
  result : Nat
  dispatched : Bool
  archiveOpened : Bool
  archiveCloses : Nat
deriving DecidableEq, Repr

/-- `install_package(root_path)`, instrumented with the trace of
archive lifetime events.  The control flow follows install.c: note
that the signature-verification failure branch returns without
reaching `mzCloseZipArchive`. -/
def install_package_run (env : InstallEnv) : InstallTrace :=
  if !env.mount_ok then ⟨INSTALL_CORRUPT, false, false, 0⟩
  else if !env.translate_ok then ⟨INSTALL_CORRUPT, false, false, 0⟩
  else
    match load_keys env.keyfile with
    | none => ⟨INSTALL_CORRUPT, false, false, 0⟩
    | some _ =>
      if !env.open_ok then ⟨INSTALL_CORRUPT, false, false, 0⟩
      else if !env.verify_ok then ⟨INSTALL_CORRUPT, false, true, 0⟩
      else ⟨handle_update_package env.zip env.pkg, true, true, 1⟩

/-- The return value of `install_package`. -/
def install_package (env : InstallEnv) : Nat :=
  (install_package_run env).result

/-! ## get_args (recovery.c)

Modelled from the spec: the bootloader control block layout lives in
the missing header `bootloader.h`; per the spec (§6) its fields are "a
command string and a recovery-argument blob (newline-joined), opaque
beyond this text contract", so the fields are embedded as unbounded
strings and the `strlcpy`/`strlcat` capacity limits are not modelled.
`MAX_ARGS` (= 100) is in recovery.c itself and is modelled. -/

structure BootMessage where
  command : String
  status : String
  recovery : String
deriving DecidableEq, Repr

/-- Environment for `get_args`: the process argument vector, the
control block as read back by `get_bootloader_message` (a failed read
leaves the zeroed structure, i.e. empty strings), and the contents of
`CACHE:recovery/command` (`none` when it cannot be opened; each
element is one line's text without its terminating newline). -/
structure ArgsEnv where
  cmdline : List String
  boot : BootMessage
  commandFile : Option (List String)
deriving DecidableEq, Repr

/-- `MAX_ARGS` (recovery.c). -/
def MAX_ARGS : Nat := 100

/-- `strtok(s, "\n")` token stream: the maximal nonempty segments of
`s` between newline characters. -/
def newlineTokens (s : String) : List String :=
  ((splitNL s.data).filter (fun t => t ≠ [])).map (fun l => String.mk l)

/-- `strtok(buf, "\r\n")` on one command-file line (whose own `\n` was
already excluded by the embedding): the first maximal nonempty run of
characters containing no carriage return.  `strtok` returns NULL on a
line made only of delimiters; the embedding returns `""` there (the C
would pass NULL to `strdup`). -/
def stripLine (line : String) : String :=
  String.mk ((((splitOnChar '\r' line.data).filter (fun t => t ≠ [])).headD []))

/-- `get_args(&argc, &argv)`: returns the resolved argument vector
(`argv[0]` included) and the control block as re-persisted by
`set_bootloader_message` at the end. -/
def get_args (env : ArgsEnv) : List String × BootMessage :=
  -- if arguments weren't supplied, look in the boot control block
  let args1 :=
    if env.cmdline.length ≤ 1 then
      match newlineTokens env.boot.recovery with
      | first :: rest =>
        if first = "recovery" then first :: rest.take (MAX_ARGS - 1)
        else env.cmdline
      | [] => env.cmdline
    else env.cmdline
  -- if that doesn't work, try the command file
  let args2 :=
    if args1.length ≤ 1 then
      match env.commandFile with
      | some fileLines =>
        (args1.headD "") :: (fileLines.map stripLine).take (MAX_ARGS - 1)
      | none => args1
    else args1
  -- write the arguments we have back into the bootloader control block
  let recovery :=
    "recovery\n" ++ String.join ((args2.drop 1).map (fun a => a ++ "\n"))
  (args2, { command := "boot-recovery", status := env.boot.status,
            recovery := recovery })

/-! ## finish_recovery (recovery.c)

File contents are embedded as `List Char`.  The `static long
tmplog_offset` is part of the persistent state since it survives
across calls within one process. -/

structure RecoveryState where
  /-- Contents of `/tmp/recovery.log`. -/
  tmplog : List Char
  /-- The `static long tmplog_offset` inside `finish_recovery`. -/
  tmplog_offset : Nat
  /-- Contents of `CACHE:recovery/log`. -/
  persistentLog : List Char
  /-- Control-block command field. -/
  bootCommand : List Char
  /-- Control-block recovery field. -/
  bootRecovery : List Char
  /-- Whether `CACHE:recovery/command` exists. -/
  commandFilePresent : Bool
  /-- Contents of `CACHE:recovery/intent`, if written. -/
  intentFile : Option (List Char)
deriving DecidableEq, Repr

/-- `finish_recovery(send_intent)`.  `cache_ok` is the outcome of
mounting/translating the cache paths (`fopen_root_path` and the
unlink preamble).  Returns the new state together with the flag of the
`Can't unlink` warning: with a mounted cache, `unlink` on an absent
command file fails with `ENOENT`, which the condition
`(unlink(path) && errno != ENOENT)` deliberately excludes. -/
def finish_recovery (cache_ok : Bool) (send_intent : Option (List Char))
    (s : RecoveryState) : RecoveryState × Bool :=
  -- record any intent we were asked to communicate back to the system
  let s1 :=
    match send_intent with
    | some i => if cache_ok then { s with intentFile := some i } else s
    | none => s
  -- copy logs to cache, resuming at tmplog_offset, then record ftell
  let s2 :=
    if cache_ok then
      { s1 with
        persistentLog := s1.persistentLog ++ s1.tmplog.drop s1.tmplog_offset,
        tmplog_offset := s1.tmplog.length }
    else s1
  -- reset the bootloader message to a zeroed structure
  let s3 := { s2 with bootCommand := [], bootRecovery := [] }
  -- remove the command file
  let s4 :=
    if cache_ok then { s3 with commandFilePresent := false } else s3
  (s4, !cache_ok)

/-! ## Specification-side definitions

These follow the spec's words, for comparison with the embedded code. -/

/-- The firmware request carried by one protocol line, per the spec:
a complete `firmware <type> <target>` line (verb plus at least two
argument tokens). -/
def firmwareRequestOf (line : List String) : Option (String × String) :=
  match line with
  | command :: type :: filename :: _ =>
    if command = "firmware" then some (type, filename) else none
  | _ => none

/-- Per the spec, the request retained by the whole protocol run is the
one of the first complete `firmware` line. -/
def specFirstFirmware : List (List String) → Option (String × String)
  | [] => none
  | line :: rest =>
    match firmwareRequestOf line with
    | some r => some r
    | none => specFirstFirmware rest

/-! ## Key-file builders

Token renderings of syntactically well-formed key files, used to state
the `load_keys` claims over arbitrary record contents. -/

/-- The numeric content of one key record: the first modulus word and
the remaining ones, likewise for the `rr` table.  A well-formed record
has 63 words in each tail (64 = `RSANUMWORDS` words in all). -/
structure KeyDesc where
  n0inv : Int
  n0 : Int
  ntail : List Int
  rr0 : Int
  rrtail : List Int
deriving DecidableEq, Repr

/-- Render `, v0 , v1 , …` word tails. -/
def renderWords (vs : List Int) : List KTok :=
  vs.foldr (fun v acc => KTok.comma :: KTok.int v :: acc) []

/-- Render one `\x7b len , n0inv , \x7b n… \x7d , \x7b rr… \x7d \x7d`
record with the given `len` field. -/
def renderKeyRecordLen (len : Int) (d : KeyDesc) : List KTok :=
  [KTok.lb, KTok.int len, KTok.comma, KTok.int d.n0inv, KTok.comma,
   KTok.lb, KTok.int d.n0] ++ renderWords d.ntail ++
  [KTok.rb, KTok.comma, KTok.lb, KTok.int d.rr0] ++ renderWords d.rrtail ++
  [KTok.rb, KTok.rb]

/-- The key `load_keys` builds from a well-formed record. -/
def keyOfDesc (d : KeyDesc) : RSAPublicKey :=
  { len := RSANUMWORDS, n0inv := d.n0inv,
    n := d.n0 :: d.ntail, rr := d.rr0 :: d.rrtail }

/-- A key file of well-formed records, comma-separated, no trailing
comma. -/
def renderKeyFile : List KeyDesc → List KTok
  | [] => []
  | [d] => renderKeyRecordLen RSANUMWORDS d
  | d :: ds => renderKeyRecordLen RSANUMWORDS d ++ KTok.comma :: renderKeyFile ds

/-- Well-formed records each followed by `,` — a file whose next
record is still to come. -/
def renderKeyFilePrefix : List KeyDesc → List KTok
  | [] => []
  | d :: ds =>
    renderKeyRecordLen RSANUMWORDS d ++ KTok.comma :: renderKeyFilePrefix ds

/-! ## Concrete fixtures for witnesses and counterexamples -/

/-- Archive holding both the binary installer and the script. -/
def zipBoth : ZipArchive :=
  ⟨[(ASSUMED_UPDATE_BINARY_NAME, ⟨8⟩), (ASSUMED_UPDATE_SCRIPT_NAME, ⟨6⟩)]⟩

/-- Archive with no entries at all. -/
def zipEmpty : ZipArchive := ⟨[]⟩

/-- Firmware environment in which every external call succeeds. -/
def fwEnvOk : FwEnv := ⟨true, true, true, true, true, true⟩

/-- A child that extracts, says nothing, and exits cleanly. -/
def childOk : ChildEnv := ⟨true, true, [], true, 0, fwEnvOk⟩

/-- A script whose read, parse and execution all succeed. -/
def scriptEnvOk : ScriptEnv := ⟨true, "line1\nline2\n".data, true, 0⟩

/-- Package dispatch environment with everything succeeding. -/
def pkgOk : PkgEnv := ⟨childOk, true, scriptEnvOk⟩

/-- One well-formed key record's contents. -/
def sampleKeyDesc : KeyDesc :=
  ⟨7, 5, List.replicate 63 5, 9, List.replicate 63 9⟩

/-- Install environment whose mount step fails. -/
def envMountFail : InstallEnv :=
  ⟨false, true, none, true, true, zipBoth, pkgOk⟩

/-- Install environment that reaches signature verification with a
parsable key file and fails there. -/
def envVerifyFail : InstallEnv :=
  ⟨true, true, some (renderKeyFile [sampleKeyDesc]), true, false, zipBoth, pkgOk⟩

/-! # Theorems -/

/-! ## Protocol-loop lemmas -/

theorem protoStep_some (p : String × String) (line : List String) :
    protoStep (some p) line = some p := by
  rcases line with _ | ⟨c, rest⟩
  · rfl
  · simp only [protoStep]
    split_ifs <;> try rfl
    rcases rest with _ | ⟨t, _ | ⟨f, more⟩⟩ <;> rfl

theorem runProtocolFrom_some (p : String × String)
    (lines : List (List String)) : runProtocolFrom (some p) lines = some p := by
  induction lines with
  | nil => rfl
  | cons l ls ih =>
    simp only [runProtocolFrom, List.foldl_cons, protoStep_some]
    exact ih

theorem protoStep_none (line : List String) :
    protoStep none line = firmwareRequestOf line := by
  rcases line with _ | ⟨c, rest⟩
  · rfl
  rcases rest with _ | ⟨t, _ | ⟨f, more⟩⟩ <;>
    · simp only [protoStep, firmwareRequestOf]
      split_ifs <;> simp_all

theorem runProtocol_eq_specFirstFirmware (lines : List (List String)) :
    runProtocol lines = specFirstFirmware lines := by
  induction lines with
  | nil => rfl
  | cons l ls ih =>
    simp only [runProtocol, runProtocolFrom, List.foldl_cons] at *
    rw [protoStep_none l]
    cases h : firmwareRequestOf l with
    | none => simpa [specFirstFirmware, h] using ih
    | some r =>
      have : List.foldl protoStep (some r) ls = some r :=
        runProtocolFrom_some r ls
      simp [specFirstFirmware, h, this]

/-- C6: within one install attempt's protocol loop, at most one pending
firmware request is ever recorded: the request after the whole loop is
the one of the first complete `firmware <type> <target>` line, and once
a request is recorded, processing any further lines leaves it
unchanged. -/
theorem claim_C6_first_firmware_request_wins (lines : List (List String))
    (p : String × String) :
    runProtocol lines = specFirstFirmware lines ∧
    runProtocolFrom (some p) lines = some p :=
  ⟨runProtocol_eq_specFirstFirmware lines, runProtocolFrom_some p lines⟩

/-- C10: a `firmware` protocol line with fewer than two argument tokens
leaves the pending-firmware state unchanged (whether or not a request
is already recorded), and the loop just continues with the following
lines. -/
theorem claim_C10_short_firmware_line_is_noop
    (st : Option (String × String)) (rest : List String)
    (h : rest.length < 2) (lines : List (List String)) :
    protoStep st ("firmware" :: rest) = st ∧
    runProtocolFrom st (("firmware" :: rest) :: lines) =
      runProtocolFrom st lines := by
  have hstep : protoStep st ("firmware" :: rest) = st := by
    rcases rest with _ | ⟨t, _ | ⟨f, more⟩⟩
    · simp [protoStep]
    · rcases st with _ | p <;> simp [protoStep]
    · exact absurd h (by simp only [List.length_cons]; omega)
  exact ⟨hstep, by simp only [runProtocolFrom, List.foldl_cons, hstep]⟩

/-- C10 witness: concrete short `firmware` lines, with and without a
recorded request. -/
theorem claim_C10_witness :
    (["hboot"] : List String).length < 2 ∧
    protoStep (some ("radio", "x.img")) ["firmware", "hboot"] =
      some ("radio", "x.img") ∧
    runProtocolFrom (some ("radio", "x.img"))
        [["firmware", "hboot"], ["ui_print", "hi"]] =
      runProtocolFrom (some ("radio", "x.img")) [["ui_print", "hi"]] :=
  ⟨by decide,
   (claim_C10_short_firmware_line_is_noop (some ("radio", "x.img")) ["hboot"]
      (by decide) [["ui_print", "hi"]]).1,
   (claim_C10_short_firmware_line_is_noop (some ("radio", "x.img")) ["hboot"]
      (by decide) [["ui_print", "hi"]]).2⟩

/-! ## Binary-installer path lemmas -/

theorem handle_firmware_update_cases (type fn : String) (zip : ZipArchive)
    (env : FwEnv) :
    (handle_firmware_update type fn zip env = INSTALL_SUCCESS ↔
      fwStepReadAndPersisted fn zip env = true) ∧
    (handle_firmware_update type fn zip env = INSTALL_SUCCESS ∨
     handle_firmware_update type fn zip env = INSTALL_ERROR) := by
  by_cases hpkg : fn.data.take 8 = "PACKAGE:".data
  · cases hfind : mzFindZipEntry zip (String.mk (fn.data.drop 8)) <;>
      cases hm : env.malloc_ok <;> cases hz : env.zip_read_ok <;>
      cases hr : env.remember_ok <;>
      simp [handle_firmware_update, fwStepReadAndPersisted, hpkg, hfind,
        hm, hz, hr, INSTALL_SUCCESS, INSTALL_ERROR]
  · simp only [Bool.not_eq_true] at hpkg
    cases hs : env.stat_ok <;> cases hm : env.malloc_ok <;>
      cases hf : env.fopen_ok <;> cases hfr : env.fread_ok <;>
      cases hr : env.remember_ok <;>
      simp [handle_firmware_update, fwStepReadAndPersisted, hpkg,
        hs, hm, hf, hfr, hr, INSTALL_SUCCESS, INSTALL_ERROR]

theorem try_update_binary_present {zip : ZipArchive} (env : ChildEnv)
    (e : ZipEntry)
    (hbin : mzFindZipEntry zip ASSUMED_UPDATE_BINARY_NAME = some e) :
    try_update_binary zip env = INSTALL_SUCCESS ∨
    try_update_binary zip env = INSTALL_ERROR := by
  unfold try_update_binary
  rw [hbin]
  cases hc : env.creat_ok
  · exact Or.inr rfl
  · cases hx : env.extract_ok
    · exact Or.inr rfl
    · simp only [Bool.not_true, Bool.false_or]
      cases he : env.exited
      · exact Or.inr rfl
      · cases hstat : env.exitStatus == 0
        · simp only [Bool.not_true, Bool.bne_false]
          rw [show (env.exitStatus != 0) = true by
            simp [bne, hstat]]
          exact Or.inr rfl
        · rw [show (!true || (env.exitStatus != 0)) = false by
            simp [bne, hstat]]
          simp only [Bool.false_eq_true, if_false]
          cases hreq : runProtocol env.lines with
          | none => exact Or.inl rfl
          | some r =>
            obtain ⟨t, f⟩ := r
            exact (handle_firmware_update_cases t f zip env.fw).2

theorem try_update_binary_absent {zip : ZipArchive} (env : ChildEnv)
    (hbin : mzFindZipEntry zip ASSUMED_UPDATE_BINARY_NAME = none) :
    try_update_binary zip env = INSTALL_CORRUPT := by
  unfold try_update_binary
  rw [hbin]

/-- C1: `handle_update_package` tries the binary installer path first;
when the binary entry is present that path never reports the tertiary
"no such entry" outcome (its result is SUCCESS or ERROR) and its result
is returned without consulting the script; the legacy script path runs
exactly when the binary entry is absent (the tertiary
`INSTALL_CORRUPT` outcome of `try_update_binary`); and when both the
binary and the script entries are absent the result is
`INSTALL_CORRUPT`. -/
theorem claim_C1_binary_first_script_fallback (zip : ZipArchive)
    (env : PkgEnv) :
    (∀ e, mzFindZipEntry zip ASSUMED_UPDATE_BINARY_NAME = some e →
      (try_update_binary zip env.child = INSTALL_SUCCESS ∨
       try_update_binary zip env.child = INSTALL_ERROR) ∧
      handle_update_package zip env = try_update_binary zip env.child) ∧
    (mzFindZipEntry zip ASSUMED_UPDATE_BINARY_NAME = none →
      try_update_binary zip env.child = INSTALL_CORRUPT ∧
      (∀ e, find_update_script zip = some e →
        handle_update_package zip env =
          (if !env.register_ok then INSTALL_ERROR
           else (handle_update_script env.script).1)) ∧
      (find_update_script zip = none →
        handle_update_package zip env = INSTALL_CORRUPT)) := by
  constructor
  · intro e hbin
    have hmem := try_update_binary_present env.child e hbin
    refine ⟨hmem, ?_⟩
    unfold handle_update_package
    rcases hmem with h | h <;>
      simp [h, INSTALL_SUCCESS, INSTALL_ERROR]
  · intro hbin
    have hcor := try_update_binary_absent env.child hbin
    refine ⟨hcor, ?_, ?_⟩
    · intro e hscript
      unfold handle_update_package
      simp [hcor, hscript, INSTALL_SUCCESS, INSTALL_ERROR, INSTALL_CORRUPT]
    · intro hscript
      unfold handle_update_package
      simp [hcor, hscript, INSTALL_SUCCESS, INSTALL_ERROR, INSTALL_CORRUPT]

/-- C1 witness: an archive with the binary entry takes the binary path;
an empty archive yields CORRUPT. -/
theorem claim_C1_witness :
    (mzFindZipEntry zipBoth ASSUMED_UPDATE_BINARY_NAME =
      some (ZipEntry.mk 8) ∧
     handle_update_package zipBoth pkgOk = try_update_binary zipBoth childOk) ∧
    (mzFindZipEntry zipEmpty ASSUMED_UPDATE_BINARY_NAME = none ∧
     find_update_script zipEmpty = none ∧
     handle_update_package zipEmpty pkgOk = INSTALL_CORRUPT) :=
  ⟨⟨rfl, ((claim_C1_binary_first_script_fallback zipBoth pkgOk).1
      (ZipEntry.mk 8) rfl).2⟩,
   ⟨rfl, rfl, ((claim_C1_binary_first_script_fallback zipEmpty pkgOk).2
      rfl).2.2 rfl⟩⟩

/-- C4: after the pipe closes, the parent waits for the child; an
abnormal or non-zero exit yields ERROR; on a clean zero exit the result
is the firmware deferral step's result when a request was recorded
(SUCCESS exactly when the payload is read and persisted, ERROR
otherwise), and SUCCESS when no request was recorded. -/
theorem claim_C4_wait_then_firmware (zip : ZipArchive) (env : ChildEnv)
    (e : ZipEntry)
    (hbin : mzFindZipEntry zip ASSUMED_UPDATE_BINARY_NAME = some e)
    (hcreat : env.creat_ok = true) (hextract : env.extract_ok = true) :
    ((env.exited = false ∨ env.exitStatus ≠ 0) →
      try_update_binary zip env = INSTALL_ERROR) ∧
    (env.exited = true → env.exitStatus = 0 →
      (∀ t f, runProtocol env.lines = some (t, f) →
        try_update_binary zip env = handle_firmware_update t f zip env.fw ∧
        (handle_firmware_update t f zip env.fw = INSTALL_SUCCESS ↔
          fwStepReadAndPersisted f zip env.fw = true) ∧
        (handle_firmware_update t f zip env.fw = INSTALL_SUCCESS ∨
         handle_firmware_update t f zip env.fw = INSTALL_ERROR)) ∧
      (runProtocol env.lines = none →
        try_update_binary zip env = INSTALL_SUCCESS)) := by
  unfold try_update_binary
  rw [hbin, hcreat, hextract]
  constructor
  · rintro (h | h)
    · simp [h]
    · simp [bne_iff_ne, h]
  · intro he hz
    refine ⟨?_, ?_⟩
    · intro t f hreq
      rw [hreq]
      exact ⟨by simp [he, hz],
        (handle_firmware_update_cases t f zip env.fw).1,
        (handle_firmware_update_cases t f zip env.fw).2⟩
    · intro hreq
      rw [hreq]
      simp [he, hz]

/-- Archive with the binary installer and a firmware image entry. -/
def zipFw : ZipArchive :=
  ⟨[(ASSUMED_UPDATE_BINARY_NAME, ⟨8⟩), ("radio.img", ⟨1024⟩)]⟩

/-- A child that requests `firmware radio PACKAGE:radio.img` and exits
cleanly. -/
def childFw : ChildEnv :=
  ⟨true, true, [["firmware", "radio", "PACKAGE:radio.img"]], true, 0, fwEnvOk⟩

/-- C4 witness: a child sending `firmware radio PACKAGE:radio.img` and
exiting 0, with the payload then read and persisted. -/
theorem claim_C4_witness :
    mzFindZipEntry zipFw ASSUMED_UPDATE_BINARY_NAME = some (ZipEntry.mk 8) ∧
    runProtocol childFw.lines = some ("radio", "PACKAGE:radio.img") ∧
    try_update_binary zipFw childFw =
      handle_firmware_update "radio" "PACKAGE:radio.img" zipFw fwEnvOk ∧
    handle_firmware_update "radio" "PACKAGE:radio.img" zipFw fwEnvOk =
      INSTALL_SUCCESS :=
  ⟨rfl, by decide,
   (((claim_C4_wait_then_firmware zipFw childFw (ZipEntry.mk 8) rfl rfl
      rfl).2 rfl rfl).1 "radio" "PACKAGE:radio.img" (by decide)).1,
   by decide⟩

/-! ## install_package pre-dispatch failures (C2) and archive lifetime (C9) -/

/-- C2: every pre-dispatch failure — unmountable root path, unresolvable
path, failing key-file load, failing archive open, failing signature
verification — makes `install_package` return CORRUPT without
dispatching any install path. -/
theorem claim_C2_predispatch_failures_corrupt (env : InstallEnv)
    (h : env.mount_ok = false ∨ env.translate_ok = false ∨
      load_keys env.keyfile = none ∨ env.open_ok = false ∨
      env.verify_ok = false) :
    install_package env = INSTALL_CORRUPT ∧
    (install_package_run env).dispatched = false := by
  cases hm : env.mount_ok with
  | false => simp [install_package, install_package_run, hm]
  | true =>
    cases ht : env.translate_ok with
    | false => simp [install_package, install_package_run, hm, ht]
    | true =>
      cases hk : load_keys env.keyfile with
      | none => simp [install_package, install_package_run, hm, ht, hk]
      | some ks =>
        cases ho : env.open_ok with
        | false => simp [install_package, install_package_run, hm, ht, hk, ho]
        | true =>
          cases hv : env.verify_ok with
          | false =>
            simp [install_package, install_package_run, hm, ht, hk, ho, hv]
          | true => simp_all

/-- C2 witness: a run whose mount step fails. -/
theorem claim_C2_witness :
    envMountFail.mount_ok = false ∧
    install_package envMountFail = INSTALL_CORRUPT ∧
    (install_package_run envMountFail).dispatched = false :=
  ⟨rfl,
   (claim_C2_predispatch_failures_corrupt envMountFail (Or.inl rfl)).1,
   (claim_C2_predispatch_failures_corrupt envMountFail (Or.inl rfl)).2⟩

/-! ## load_keys lemmas (C3) -/

theorem load_keys_from_eq (ts : List KTok) (acc : List RSAPublicKey) :
    load_keys_from ts acc =
      match parseOneKey ts with
      | none => none
      | some (key, ts') =>
        match ts' with
        | [] => some (acc ++ [key])
        | KTok.comma :: ts'' => load_keys_from ts'' (acc ++ [key])
        | _ => none := by
  conv_lhs => rw [load_keys_from.eq_def]
  split
  next heq => rw [heq]
  next key ts' heq =>
    simp only [heq]
    cases ts' with
    | nil => rfl
    | cons t rest => cases t <;> rfl

theorem load_keys_from_none {ts : List KTok} {acc : List RSAPublicKey}
    (h : parseOneKey ts = none) : load_keys_from ts acc = none := by
  rw [load_keys_from_eq, h]

theorem load_keys_from_done {ts : List KTok} {acc : List RSAPublicKey}
    {k : RSAPublicKey} (h : parseOneKey ts = some (k, [])) :
    load_keys_from ts acc = some (acc ++ [k]) := by
  rw [load_keys_from_eq, h]

theorem load_keys_from_comma {ts ts'' : List KTok} {acc : List RSAPublicKey}
    {k : RSAPublicKey} (h : parseOneKey ts = some (k, KTok.comma :: ts'')) :
    load_keys_from ts acc = load_keys_from ts'' (acc ++ [k]) := by
  rw [load_keys_from_eq, h]

theorem load_keys_from_junk {ts ts' : List KTok} {acc : List RSAPublicKey}
    {k : RSAPublicKey} {t : KTok} (h : parseOneKey ts = some (k, t :: ts'))
    (ht : t ≠ KTok.comma) : load_keys_from ts acc = none := by
  rw [load_keys_from_eq, h]
  cases t with
  | comma => exact absurd rfl ht
  | lb => rfl
  | rb => rfl
  | int v => rfl
  | junk => rfl

theorem readInts_renderWords (vs : List Int) (suffix : List KTok) :
    readInts vs.length (renderWords vs ++ suffix) = some (vs, suffix) := by
  induction vs with
  | nil => rfl
  | cons v vs ih =>
    simp only [renderWords, List.foldr_cons, List.length_cons, readInts,
      List.cons_append]
    rw [show (List.foldr (fun v acc => KTok.comma :: KTok.int v :: acc) []
        vs) = renderWords vs from rfl, ih]

theorem parseOneKey_render (d : KeyDesc) (hn : d.ntail.length = 63)
    (hr : d.rrtail.length = 63) (suffix : List KTok) :
    parseOneKey (renderKeyRecordLen RSANUMWORDS d ++ suffix) =
      some (keyOfDesc d, suffix) := by
  have hwords : ∀ (vs : List Int) (s : List KTok), vs.length = 63 →
      readInts 63 (renderWords vs ++ s) = some (vs, s) := by
    intro vs s hlen
    rw [show (63 : Nat) = vs.length from hlen.symm]
    exact readInts_renderWords vs s
  simp only [renderKeyRecordLen, List.cons_append, List.append_assoc,
    List.nil_append, parseOneKey]
  rw [if_neg (by simp [RSANUMWORDS])]
  rw [hwords d.ntail _ hn]
  simp only []
  rw [hwords d.rrtail _ hr]
  simp only [consumeRbRb, keyOfDesc]

theorem load_keys_from_render (ds : List KeyDesc)
    (hds : ∀ d ∈ ds, d.ntail.length = 63 ∧ d.rrtail.length = 63)
    (hne : ds ≠ []) (acc : List RSAPublicKey) :
    load_keys_from (renderKeyFile ds) acc =
      some (acc ++ ds.map keyOfDesc) := by
  induction ds generalizing acc with
  | nil => exact absurd rfl hne
  | cons d ds ih =>
    obtain ⟨hn, hr⟩ := hds d (List.mem_cons_self d ds)
    cases ds with
    | nil =>
      have hparse := parseOneKey_render d hn hr []
      rw [List.append_nil] at hparse
      rw [show renderKeyFile [d] = renderKeyRecordLen RSANUMWORDS d from rfl]
      rw [load_keys_from_done hparse]
      simp
    | cons d2 ds2 =>
      have hparse := parseOneKey_render d hn hr
        (KTok.comma :: renderKeyFile (d2 :: ds2))
      rw [show renderKeyFile (d :: d2 :: ds2) =
        renderKeyRecordLen RSANUMWORDS d ++
          KTok.comma :: renderKeyFile (d2 :: ds2) from rfl]
      rw [load_keys_from_comma hparse]
      rw [ih (fun x hx => hds x (List.mem_cons_of_mem d hx)) (by simp)]
      simp

theorem load_keys_from_prefix_bad (ds : List KeyDesc)
    (hds : ∀ d ∈ ds, d.ntail.length = 63 ∧ d.rrtail.length = 63)
    (bad : List KTok) (hbad : parseOneKey bad = none)
    (acc : List RSAPublicKey) :
    load_keys_from (renderKeyFilePrefix ds ++ bad) acc = none := by
  induction ds generalizing acc with
  | nil => simpa [renderKeyFilePrefix] using load_keys_from_none hbad
  | cons d ds ih =>
    obtain ⟨hn, hr⟩ := hds d (List.mem_cons_self d ds)
    have hparse := parseOneKey_render d hn hr
      (KTok.comma :: (renderKeyFilePrefix ds ++ bad))
    rw [show renderKeyFilePrefix (d :: ds) ++ bad =
        renderKeyRecordLen RSANUMWORDS d ++
          (KTok.comma :: (renderKeyFilePrefix ds ++ bad)) by
      simp [renderKeyFilePrefix]]
    rw [load_keys_from_comma hparse]
    exact ih (fun x hx => hds x (List.mem_cons_of_mem d hx)) _

theorem load_keys_from_trailing_junk (ds : List KeyDesc)
    (hds : ∀ d ∈ ds, d.ntail.length = 63 ∧ d.rrtail.length = 63)
    (hne : ds ≠ []) (t : KTok) (ht : t ≠ KTok.comma) (more : List KTok)
    (acc : List RSAPublicKey) :
    load_keys_from (renderKeyFile ds ++ t :: more) acc = none := by
  induction ds generalizing acc with
  | nil => exact absurd rfl hne
  | cons d ds ih =>
    obtain ⟨hn, hr⟩ := hds d (List.mem_cons_self d ds)
    cases ds with
    | nil =>
      have hparse := parseOneKey_render d hn hr (t :: more)
      rw [show renderKeyFile [d] = renderKeyRecordLen RSANUMWORDS d from rfl]
      exact load_keys_from_junk hparse ht
    | cons d2 ds2 =>
      have hparse := parseOneKey_render d hn hr
        (KTok.comma :: (renderKeyFile (d2 :: ds2) ++ t :: more))
      rw [show renderKeyFile (d :: d2 :: ds2) ++ t :: more =
          renderKeyRecordLen RSANUMWORDS d ++
            (KTok.comma :: (renderKeyFile (d2 :: ds2) ++ t :: more)) by
        simp [renderKeyFile]]
      rw [load_keys_from_comma hparse]
      exact ih (fun x hx => hds x (List.mem_cons_of_mem d hx)) (by simp) _

/-- C3: `load_keys` is all-or-nothing.  A syntactically valid key file
of `N` well-formed records yields exactly the `N` keys in file order;
an unopenable file, a record whose `len` field differs from
`RSANUMWORDS`, an unparsable numeric field, or any character other
than `,` or end-of-input after a closing record makes the whole parse
fail with zero keys. -/
theorem claim_C3_load_keys_all_or_nothing (ds : List KeyDesc)
    (hds : ∀ d ∈ ds, d.ntail.length = 63 ∧ d.rrtail.length = 63)
    (hne : ds ≠ []) :
    (load_keys (some (renderKeyFile ds)) = some (ds.map keyOfDesc) ∧
     (ds.map keyOfDesc).length = ds.length) ∧
    load_keys none = none ∧
    (∀ bad, parseOneKey bad = none →
      load_keys (some (renderKeyFilePrefix ds ++ bad)) = none) ∧
    (∀ (L a b : Int) (rest : List KTok), L ≠ RSANUMWORDS →
      parseOneKey (KTok.lb :: KTok.int L :: KTok.comma :: KTok.int a ::
        KTok.comma :: KTok.lb :: KTok.int b :: rest) = none) ∧
    (∀ rest : List KTok, parseOneKey (KTok.lb :: KTok.junk :: rest) = none) ∧
    (∀ (t : KTok) (more : List KTok), t ≠ KTok.comma →
      load_keys (some (renderKeyFile ds ++ t :: more)) = none) := by
  refine ⟨⟨?_, by simp⟩, rfl, ?_, ?_, ?_, ?_⟩
  · have := load_keys_from_render ds hds hne []
    simpa [load_keys] using this
  · intro bad hbad
    have := load_keys_from_prefix_bad ds hds bad hbad []
    simpa [load_keys] using this
  · intro L a b rest hL
    simp only [parseOneKey]
    rw [if_pos hL]
  · intro rest
    rfl
  · intro t more ht
    have := load_keys_from_trailing_junk ds hds hne t ht more []
    simpa [load_keys] using this

/-- C3 witness: a one-record file parses to one key; the same record
followed by a comma and an unparsable record fails wholesale. -/
theorem claim_C3_witness :
    (∀ d ∈ [sampleKeyDesc], d.ntail.length = 63 ∧ d.rrtail.length = 63) ∧
    ([sampleKeyDesc] ≠ ([] : List KeyDesc)) ∧
    load_keys (some (renderKeyFile [sampleKeyDesc])) =
      some [keyOfDesc sampleKeyDesc] ∧
    load_keys (some (renderKeyFilePrefix [sampleKeyDesc] ++
      [KTok.lb, KTok.junk])) = none :=
  ⟨by decide, by decide,
   by
    have h := ((claim_C3_load_keys_all_or_nothing [sampleKeyDesc]
      (by decide) (by decide)).1).1
    simpa using h,
   ((claim_C3_load_keys_all_or_nothing [sampleKeyDesc]
      (by decide) (by decide)).2.2.1) [KTok.lb, KTok.junk] rfl⟩

/-- Install environment in which everything succeeds. -/
def envAllOk : InstallEnv :=
  ⟨true, true, some (renderKeyFile [sampleKeyDesc]), true, true, zipBoth, pkgOk⟩

theorem load_keys_sampleKeyFile :
    load_keys (some (renderKeyFile [sampleKeyDesc])) =
      some [keyOfDesc sampleKeyDesc] := by
  have := load_keys_from_render [sampleKeyDesc] (by decide) (by decide) []
  simpa [load_keys] using this

/-- C9 counterexample: a run whose archive opens but whose signature
verification fails returns without closing the archive — the close
count is 0, not 1. -/
theorem claim_C9_counterexample :
    (install_package_run envVerifyFail).archiveOpened = true ∧
    (install_package_run envVerifyFail).archiveCloses = 0 := by
  constructor <;>
    simp [install_package_run, envVerifyFail, load_keys_sampleKeyFile]

/-- C9 (amended): the archive is closed exactly once in every run that
reaches dispatch, i.e. exactly when signature verification succeeds
after the open; when verification fails after a successful open,
`install_package` returns CORRUPT without closing the archive. -/
theorem claim_C9_archive_close_iff_dispatch (env : InstallEnv) :
    ((install_package_run env).dispatched = true →
      (install_package_run env).archiveCloses = 1) ∧
    ((install_package_run env).archiveOpened = true →
      env.verify_ok = false →
      (install_package_run env).archiveCloses = 0 ∧
      install_package env = INSTALL_CORRUPT) ∧
    ((install_package_run env).archiveOpened = true →
      ((install_package_run env).archiveCloses = 1 ↔
        env.verify_ok = true)) := by
  cases hm : env.mount_ok with
  | false => simp [install_package, install_package_run, hm]
  | true =>
    cases ht : env.translate_ok with
    | false => simp [install_package, install_package_run, hm, ht]
    | true =>
      cases hk : load_keys env.keyfile with
      | none => simp [install_package, install_package_run, hm, ht, hk]
      | some ks =>
        cases ho : env.open_ok with
        | false => simp [install_package, install_package_run, hm, ht, hk, ho]
        | true =>
          cases hv : env.verify_ok with
          | false =>
            simp [install_package, install_package_run, hm, ht, hk, ho, hv,
              INSTALL_CORRUPT]
          | true =>
            simp [install_package, install_package_run, hm, ht, hk, ho, hv]

/-- C9 witness: a fully successful run closes the archive exactly once;
the verification-failure run does not close it. -/
theorem claim_C9_witness :
    (install_package_run envAllOk).archiveCloses = 1 ∧
    (install_package_run envVerifyFail).archiveCloses = 0 ∧
    install_package envVerifyFail = INSTALL_CORRUPT :=
  ⟨(claim_C9_archive_close_iff_dispatch envAllOk).1
    (by simp [install_package_run, envAllOk, load_keys_sampleKeyFile]),
   ((claim_C9_archive_close_iff_dispatch envVerifyFail).2.1
    (by simp [install_package_run, envVerifyFail, load_keys_sampleKeyFile])
    rfl).1,
   ((claim_C9_archive_close_iff_dispatch envVerifyFail).2.1
    (by simp [install_package_run, envVerifyFail, load_keys_sampleKeyFile])
    rfl).2⟩

/-! ## Script-diagnostic lemmas (C7) -/

theorem splitOnChar_ne_nil (sep : Char) (cs : List Char) :
    splitOnChar sep cs ≠ [] := by
  cases cs with
  | nil => simp [splitOnChar]
  | cons c cs =>
    simp only [splitOnChar, List.foldr_cons]
    split_ifs <;> simp

theorem splitNL_cons (c : Char) (cs : List Char) :
    splitNL (c :: cs) =
      if c = '\n' then [] :: splitNL cs
      else (c :: (splitNL cs).headD []) :: (splitNL cs).tail := by
  simp [splitNL, splitOnChar]

theorem splitFirstNL_cons (c : Char) (cs : List Char) :
    splitFirstNL (c :: cs) =
      if c = '\n' then ([], some cs)
      else (c :: (splitFirstNL cs).1, (splitFirstNL cs).2) := by
  cases h : splitFirstNL cs with
  | mk seg rest => simp [splitFirstNL, h]

theorem splitNL_of_none {cs seg : List Char}
    (h : splitFirstNL cs = (seg, none)) : splitNL cs = [seg] := by
  induction cs generalizing seg with
  | nil =>
    simp only [splitFirstNL, Prod.mk.injEq] at h
    rw [show seg = [] from h.1.symm]
    rfl
  | cons c cs ih =>
    rw [splitFirstNL_cons] at h
    by_cases hc : c = '\n'
    · rw [if_pos hc] at h
      simp at h
    · rw [if_neg hc] at h
      cases hsp : splitFirstNL cs with
      | mk seg2 rest2 =>
        rw [hsp] at h
        simp only [Prod.mk.injEq] at h
        obtain ⟨h1, h2⟩ := h
        subst h2
        rw [splitNL_cons, if_neg hc, ih hsp, ← h1]
        simp

theorem splitNL_of_some {cs seg r : List Char}
    (h : splitFirstNL cs = (seg, some r)) : splitNL cs = seg :: splitNL r := by
  induction cs generalizing seg r with
  | nil => simp [splitFirstNL] at h
  | cons c cs ih =>
    rw [splitFirstNL_cons] at h
    by_cases hc : c = '\n'
    · rw [if_pos hc] at h
      simp only [Prod.mk.injEq, Option.some.injEq] at h
      obtain ⟨h1, h2⟩ := h
      rw [splitNL_cons, if_pos hc, ← h1, h2]
    · rw [if_neg hc] at h
      cases hsp : splitFirstNL cs with
      | mk seg2 rest2 =>
        rw [hsp] at h
        simp only [Prod.mk.injEq] at h
        obtain ⟨h1, h2⟩ := h
        subst h2
        rw [splitNL_cons, if_neg hc, ih hsp, ← h1]
        simp

theorem splitNL_length_pos (cs : List Char) : 1 ≤ (splitNL cs).length := by
  have h := splitOnChar_ne_nil '\n' cs
  cases hh : splitOnChar '\n' cs with
  | nil => exact absurd hh h
  | cons a l => simp [splitNL, hh]

theorem scanLines_eq (num : Nat) (hnum : 1 ≤ num) (buf : List Char) :
    scanLines num buf =
      if num + 1 ≤ (splitNL buf).length
      then some ((splitNL buf).getD (num - 1) [])
      else none := by
  induction num generalizing buf with
  | zero => omega
  | succ k ih =>
    cases hsp : splitFirstNL buf with
    | mk seg rest =>
      cases rest with
      | none =>
        have hbuf := splitNL_of_none hsp
        cases k with
        | zero => simp [scanLines, hsp, hbuf]
        | succ k2 => simp [scanLines, hsp, hbuf]
      | some r =>
        have hbuf := splitNL_of_some hsp
        have hpos := splitNL_length_pos r
        cases k with
        | zero =>
          have hlen : 1 + 1 ≤ (splitNL buf).length := by
            rw [hbuf]; simp only [List.length_cons]; omega
          rw [show scanLines 1 buf =
              (match splitFirstNL buf with
               | (_, none) => none
               | (seg, some _) => some seg) from rfl]
          rw [hsp, if_pos hlen, hbuf]
          simp
        | succ k2 =>
          rw [show scanLines (k2 + 2) buf =
              (match splitFirstNL buf with
               | (_, none) => none
               | (_, some rest) => scanLines (k2 + 1) rest) from rfl]
          rw [hsp]
          have hred : (match ((seg, some r) : List Char × Option (List Char)) with
               | (_, none) => none
               | (_, some rest) => scanLines (k2 + 1) rest) =
              scanLines (k2 + 1) r := rfl
          rw [hred, ih (by omega) r, hbuf]
          simp only [List.length_cons, List.getD_cons_succ,
            Nat.succ_sub_one]
          by_cases hcond : k2 + 1 + 1 ≤ (splitNL r).length
          · rw [if_pos hcond, if_pos (by omega)]
          · rw [if_neg hcond, if_neg (by omega)]

/-- C7 counterexample: a script whose third line is not
newline-terminated.  The interpreter stops at line 3; the 3rd source
line is `ef`, but the diagnostic prints the `(未找到)` ("not found")
placeholder instead of the 3rd line, because the scan's `next` pointer
is NULL when the loop ends on an unterminated final line. -/
theorem claim_C7_counterexample :
    (handle_update_script ⟨true, "ab\ncd\nef".data, true, 3⟩).1 =
      INSTALL_ERROR ∧
    (splitNL "ab\ncd\nef".data).getD 2 [] = "ef".data ∧
    (handle_update_script ⟨true, "ab\ncd\nef".data, true, 3⟩).2 =
      some "(未找到)".data ∧
    "(未找到)".data ≠ "ef".data := by
  refine ⟨rfl, by decide, by decide, by decide⟩

/-- C7 (amended): an unreadable script entry or a parse failure yields
ERROR with no line diagnostic; a non-zero interpreter result `N ≥ 1`
yields ERROR, and the diagnostic names the literal N-th source line of
the buffer when the buffer contains at least `N` newline characters
(each of the first `N` lines newline-terminated); otherwise — in
particular when the N-th line is the unterminated final line — it
prints the `(未找到)` placeholder instead. -/
theorem claim_C7_script_error_line_diagnostic (env : ScriptEnv) :
    (env.read_ok = false → handle_update_script env = (INSTALL_ERROR, none)) ∧
    (env.parse_ok = false →
      handle_update_script env = (INSTALL_ERROR, none) ∨
      env.read_ok = false) ∧
    (env.read_ok = true → env.parse_ok = true → 1 ≤ env.exec_ret →
      (handle_update_script env).1 = INSTALL_ERROR ∧
      (env.exec_ret + 1 ≤ (splitNL env.script).length →
        (handle_update_script env).2 =
          some ((splitNL env.script).getD (env.exec_ret - 1) [])) ∧
      ((splitNL env.script).length < env.exec_ret + 1 →
        (handle_update_script env).2 = some "(未找到)".data)) := by
  refine ⟨?_, ?_, ?_⟩
  · intro h
    simp [handle_update_script, h]
  · intro h
    cases hr : env.read_ok with
    | false => exact Or.inr rfl
    | true => exact Or.inl (by simp [handle_update_script, hr, h])
  · intro hr hp hret
    have hscan := scanLines_eq env.exec_ret hret env.script
    have hnz : (env.exec_ret != 0) = true := by
      simp only [bne_iff_ne, ne_eq]
      omega
    refine ⟨by simp [handle_update_script, hr, hp, hnz], ?_, ?_⟩
    · intro hle
      simp only [handle_update_script, hr, hp, hnz, Bool.not_true,
        Bool.false_eq_true, if_false, if_true]
      rw [hscan, if_pos hle]
    · intro hlt
      simp only [handle_update_script, hr, hp, hnz, Bool.not_true,
        Bool.false_eq_true, if_false, if_true]
      rw [hscan, if_neg (by omega)]

/-- C7 witness: with a newline-terminated third line the diagnostic
names it; with an unterminated third line it prints the placeholder. -/
theorem claim_C7_witness :
    (handle_update_script ⟨true, "ab\ncd\nef\n".data, true, 3⟩).2 =
      some ((splitNL "ab\ncd\nef\n".data).getD 2 []) ∧
    (splitNL "ab\ncd\nef\n".data).getD 2 [] = "ef".data ∧
    (handle_update_script ⟨true, "ab\ncd\nef".data, true, 3⟩).2 =
      some "(未找到)".data :=
  ⟨((claim_C7_script_error_line_diagnostic
      ⟨true, "ab\ncd\nef\n".data, true, 3⟩).2.2 rfl rfl (by decide)).2.1
      (by decide),
   by decide,
   ((claim_C7_script_error_line_diagnostic
      ⟨true, "ab\ncd\nef".data, true, 3⟩).2.2 rfl rfl (by decide)).2.2
      (by decide)⟩

/-! ## get_args (C5) -/

/-- C5: argument sources are consulted in precedence order — direct
invocation arguments (when more than the bare program name is present),
then the control-block recovery slot (only when its first
newline-delimited token is the literal `recovery`), then the command
file (one newline-stripped argument per line) — and regardless of the
source, the control block is re-persisted with command `boot-recovery`
and a recovery field of `recovery` followed by every resolved argument,
one per line. -/
theorem claim_C5_arg_precedence_and_repersist (env : ArgsEnv) :
    (2 ≤ env.cmdline.length → (get_args env).1 = env.cmdline) ∧
    (env.cmdline.length ≤ 1 →
      ∀ rest, newlineTokens env.boot.recovery = "recovery" :: rest →
        rest ≠ [] →
        (get_args env).1 = "recovery" :: rest.take (MAX_ARGS - 1)) ∧
    (env.cmdline.length ≤ 1 →
      (∀ first rest, newlineTokens env.boot.recovery = first :: rest →
        first ≠ "recovery") →
      ∀ fileLines, env.commandFile = some fileLines →
        (get_args env).1 =
          env.cmdline.headD "" ::
            (fileLines.map stripLine).take (MAX_ARGS - 1)) ∧
    ((get_args env).2.command = "boot-recovery" ∧
     (get_args env).2.recovery =
       "recovery\n" ++
         String.join (((get_args env).1.drop 1).map (fun a => a ++ "\n"))) := by
  refine ⟨?_, ?_, ?_, rfl, rfl⟩
  · intro h2
    have hgt : ¬ env.cmdline.length ≤ 1 := by omega
    simp [get_args, hgt]
  · intro h1 rest htok hne
    have hlen : ¬ ("recovery" :: rest.take (MAX_ARGS - 1)).length ≤ 1 := by
      cases rest with
      | nil => exact absurd rfl hne
      | cons a l => simp [MAX_ARGS, List.length_take]
    simp [get_args, h1, htok, hlen]
    rintro (hc | hc)
    · exact absurd hc (by simp [MAX_ARGS])
    · exact absurd hc hne
  · intro h1 hnotrec fileLines hfile
    cases htok : newlineTokens env.boot.recovery with
    | nil => simp [get_args, h1, htok, hfile]
    | cons first rest =>
      have hne : first ≠ "recovery" := hnotrec first rest htok
      simp [get_args, h1, htok, hne, hfile]

/-- Environment for the C5 witness: no invocation args, a BCB slot
starting with the recovery marker. -/
def argsEnvBcb : ArgsEnv :=
  ⟨["recoverybin"], ⟨"boot-recovery", "", "recovery\n--wipe_data\n"⟩, none⟩

/-- C5 witness: arguments resolved from the control block, and the
control block re-persisted with `boot-recovery` plus the argument
list. -/
theorem claim_C5_witness :
    newlineTokens argsEnvBcb.boot.recovery = ["recovery", "--wipe_data"] ∧
    (get_args argsEnvBcb).1 = ["recovery", "--wipe_data"] ∧
    (get_args argsEnvBcb).2.command = "boot-recovery" ∧
    (get_args argsEnvBcb).2.recovery = "recovery\n--wipe_data\n" :=
  ⟨by decide,
   by
    have h := (claim_C5_arg_precedence_and_repersist argsEnvBcb).2.1
      (by decide) ["--wipe_data"] (by decide) (by decide)
    simpa using h,
   (claim_C5_arg_precedence_and_repersist argsEnvBcb).2.2.2.1,
   by decide⟩

/-! ## finish_recovery (C8) -/

/-- C8: `finish_recovery` is idempotent: a second consecutive call
appends nothing to the persistent log (the copy resumes from the
offset recorded by the first call, which equals the temporary log's
length), the control-block slot is zeroed after each call, and an
absent command file produces no `Can't unlink` warning (with the cache
mounted, the warning flag is false whether or not the file exists). -/
theorem claim_C8_finish_recovery_idempotent (s : RecoveryState)
    (intent : Option (List Char)) (cache_ok : Bool) :
    (finish_recovery cache_ok intent
        (finish_recovery cache_ok intent s).1).1.persistentLog =
      (finish_recovery cache_ok intent s).1.persistentLog ∧
    (cache_ok = true →
      (finish_recovery cache_ok intent s).1.tmplog_offset =
        s.tmplog.length) ∧
    (finish_recovery cache_ok intent s).1.bootCommand = [] ∧
    (finish_recovery cache_ok intent s).1.bootRecovery = [] ∧
    (finish_recovery cache_ok intent
        (finish_recovery cache_ok intent s).1).1.bootCommand = [] ∧
    (finish_recovery cache_ok intent
        (finish_recovery cache_ok intent s).1).1.bootRecovery = [] ∧
    (cache_ok = true → (finish_recovery cache_ok intent s).2 = false) ∧
    (cache_ok = true →
      (finish_recovery cache_ok intent s).1.commandFilePresent = false) := by
  cases cache_ok <;> cases intent <;>
    simp [finish_recovery, List.drop_length]

/-- C8 witness: a concrete state run through two calls. -/
theorem claim_C8_witness :
    (finish_recovery true (some "log wiped".data)
        (finish_recovery true (some "log wiped".data)
          ⟨"hello\n".data, 0, [], "boot-recovery".data, "recovery\n".data,
           true, none⟩).1).1.persistentLog =
      (finish_recovery true (some "log wiped".data)
        ⟨"hello\n".data, 0, [], "boot-recovery".data, "recovery\n".data,
         true, none⟩).1.persistentLog ∧
    (finish_recovery true (some "log wiped".data)
      ⟨"hello\n".data, 0, [], "boot-recovery".data, "recovery\n".data,
       true, none⟩).1.bootCommand = [] ∧
    (finish_recovery true (some "log wiped".data)
      ⟨"hello\n".data, 0, [], "boot-recovery".data, "recovery\n".data,
       true, none⟩).2 = false :=
  ⟨(claim_C8_finish_recovery_idempotent
      ⟨"hello\n".data, 0, [], "boot-recovery".data, "recovery\n".data,
       true, none⟩ (some "log wiped".data) true).1,
   (claim_C8_finish_recovery_idempotent
      ⟨"hello\n".data, 0, [], "boot-recovery".data, "recovery\n".data,
       true, none⟩ (some "log wiped".data) true).2.2.1,
   (claim_C8_finish_recovery_idempotent
      ⟨"hello\n".data, 0, [], "boot-recovery".data, "recovery\n".data,
       true, none⟩ (some "log wiped".data) true).2.2.2.2.2.2.1 rfl⟩

end Recovery
